import Mathlib

/-!
Shallow embedding of the Dify knowledge-base migration tool
(src/dify_client.py, src/dify_migration.py, src/constants.py) and proofs
settling the specification claims about pagination, the retry and SSL
fallback policy of the request core, the import policy, and the
streaming versus batch migration strategies.
-/

namespace DifySpec

/-! ## Defaults (constants.py, MigrationDefaults) -/

def MAX_RETRIES : Nat := 3

def RETRY_DELAY : ℚ := 2

/-! ## Pagination

Embeds the while-loop shared by DifyClient.get_all_datasets,
DifyClient.get_all_documents and DifyClient.get_all_apps
(dify_client.py lines 152-167, 183-198, 306-321): start at page 1,
extend the accumulator with the data of each response, stop when
has_more is false, otherwise increment the page by one.  The server is
an oracle from page numbers to responses; the while-True loop is given
fuel and returns none when the fuel runs out.  Besides the collected
items, the loop records the list of page numbers it requested.
-/

structure PageResponse (α : Type) where
  data : List α
  has_more : Bool

def getAllLoop {α : Type} (server : Nat → PageResponse α) :
    Nat → Nat → List Nat → List α → Option (List Nat × List α)
  | 0, _, _, _ => none
  | fuel + 1, page, pagesReq, acc =>
      let response := server page
      let acc2 := acc ++ response.data
      let pagesReq2 := pagesReq ++ [page]
      if response.has_more then getAllLoop server fuel (page + 1) pagesReq2 acc2
      else some (pagesReq2, acc2)

def getAll {α : Type} (server : Nat → PageResponse α) (fuel : Nat) :
    Option (List Nat × List α) :=
  getAllLoop server fuel 1 [] []

/-! ## Request core (DifyClient._make_request, dify_client.py lines 46-143)

The outcome of the k-th request sent with certificate validation
enabled is given by an oracle `send`; the outcome of the verify=False
fallback request issued after an SSL error at attempt k is given by the
oracle `fb` (some v = success, none = the fallback request raised).
The result records, besides the returned value or propagated error, the
number of verified requests sent, the number of fallback requests sent,
and the backoff delays slept between 500 retries.
-/

inductive ReqResult (α : Type) where
  | ok (v : α)
  | httpErr (status : Nat)
  | sslErr
deriving DecidableEq

inductive ReqError where
  | httpError (status : Nat)
  | fallbackFailed
  | unexpected
deriving DecidableEq

structure MRResult (α : Type) where
  result : Except ReqError α
  verifiedRequests : Nat
  fallbackRequests : Nat
  backoffDelays : List ℚ

def makeRequestLoop {α : Type} (send : Nat → ReqResult α) (fb : Nat → Option α)
    (retryDelay : ℚ) (maxRetries : Nat) :
    Nat → Nat → Option ReqError → Nat → Nat → List ℚ → MRResult α
  | 0, _, lastError, vReq, fReq, delays =>
      ⟨Except.error (lastError.getD ReqError.unexpected), vReq, fReq, delays⟩
  | remaining + 1, attempt, lastError, vReq, fReq, delays =>
      match send attempt with
      | ReqResult.ok v => ⟨Except.ok v, vReq + 1, fReq, delays⟩
      | ReqResult.sslErr =>
          match fb attempt with
          | some v => ⟨Except.ok v, vReq + 1, fReq + 1, delays⟩
          | none => ⟨Except.error ReqError.fallbackFailed, vReq + 1, fReq + 1, delays⟩
      | ReqResult.httpErr status =>
          if status = 500 ∧ attempt < maxRetries then
            makeRequestLoop send fb retryDelay maxRetries remaining (attempt + 1)
              (some (ReqError.httpError 500)) (vReq + 1) fReq
              (delays ++ [retryDelay * 2 ^ attempt])
          else
            ⟨Except.error (ReqError.httpError status), vReq + 1, fReq, delays⟩

def makeRequest {α : Type} (send : Nat → ReqResult α) (fb : Nat → Option α) : MRResult α :=
  makeRequestLoop send fb RETRY_DELAY MAX_RETRIES (MAX_RETRIES + 1) 0 none 0 0 []

/-! ## Theorems: pagination (claim C1) -/

lemma getAllLoop_run {α : Type} (server : Nat → PageResponse α) (N : Nat)
    (hmore : ∀ p, 1 ≤ p → p < N → (server p).has_more = true)
    (hlast : (server N).has_more = false) :
    ∀ (m page : Nat), 1 ≤ m → 1 ≤ page → page + m = N + 1 →
      ∀ (pr : List Nat) (acc : List α),
        getAllLoop server m page pr acc =
          some (pr ++ List.range' page m,
                acc ++ ((List.range' page m).map (fun p => (server p).data)).flatten) := by
  intro m
  induction m with
  | zero => intro page h1 _ _ _ _; omega
  | succ k ih =>
      intro page _ hpage hsum pr acc
      by_cases hk : k = 0
      · subst hk
        have hpN : page = N := by omega
        subst hpN
        simp [getAllLoop, hlast]
      · have hlt : page < N := by omega
        have hmp : (server page).has_more = true := hmore page hpage hlt
        have hrec := ih (page + 1) (by omega) (by omega) (by omega)
          (pr ++ [page]) (acc ++ (server page).data)
        simp only [getAllLoop, hmp, if_true]
        rw [hrec]
        simp [List.range'_succ]

/-- Claim C1: for every sequence of N pages where the server reports
has_more = true on pages 1..N-1 and false on page N, the list-all loop
(get_all_datasets, get_all_documents, get_all_apps) requests exactly
pages 1, 2, ..., N in order and returns the concatenation of all N
pages of items, stopping only at the has_more = false page. -/
theorem C1_pagination_collects_all_pages {α : Type} (server : Nat → PageResponse α)
    (N : Nat) (h1 : 1 ≤ N)
    (hmore : ∀ p, 1 ≤ p → p < N → (server p).has_more = true)
    (hlast : (server N).has_more = false) :
    getAll server N =
      some (List.range' 1 N,
            ((List.range' 1 N).map (fun p => (server p).data)).flatten) := by
  have h := getAllLoop_run server N hmore hlast N 1 h1 (by omega) (by omega) [] []
  simpa [getAll] using h

def twoPageServer : Nat → PageResponse Nat := fun p =>
  if p = 1 then ⟨[10], true⟩ else if p = 2 then ⟨[20, 30], false⟩ else ⟨[], false⟩

theorem C1_pagination_collects_all_pages_witness :
    getAll twoPageServer 2 = some ([1, 2], [10, 20, 30]) := by
  have h := C1_pagination_collects_all_pages twoPageServer 2 (by norm_num)
    (fun p hp1 hp2 => by interval_cases p <;> rfl) rfl
  simpa using h

/-! ## Theorems: retry policy (claim C2) and SSL fallback (claim C8) -/

/-- Claim C2: through the request core, an HTTP 500 is retried up to 3
additional attempts (4 requests in total) with backoff delays 2, 4, 8
seconds; a 500 on every attempt sends exactly 4 requests and then the
last error propagates; any other non-2xx status propagates immediately
with no further requests; a 500 on early attempts followed by a success
sends exactly as many requests as attempts up to and including the
successful one and returns the successful response. -/
theorem C2_retry_policy {α : Type} (send : Nat → ReqResult α) (fb : Nat → Option α) :
    ((∀ k, k ≤ MAX_RETRIES → send k = ReqResult.httpErr 500) →
      makeRequest send fb =
        ⟨Except.error (ReqError.httpError 500), 4, 0, [2, 4, 8]⟩)
  ∧ (∀ j s, j ≤ MAX_RETRIES → s ≠ 500 →
      (∀ k, k < j → send k = ReqResult.httpErr 500) →
      send j = ReqResult.httpErr s →
      makeRequest send fb =
        ⟨Except.error (ReqError.httpError s), j + 1, 0,
          (List.range j).map (fun a => RETRY_DELAY * 2 ^ a)⟩)
  ∧ (∀ j v, j ≤ MAX_RETRIES →
      (∀ k, k < j → send k = ReqResult.httpErr 500) →
      send j = ReqResult.ok v →
      makeRequest send fb =
        ⟨Except.ok v, j + 1, 0, (List.range j).map (fun a => RETRY_DELAY * 2 ^ a)⟩) := by
  refine ⟨?_, ?_, ?_⟩
  · intro h
    have h0 := h 0 (by decide)
    have h1 := h 1 (by decide)
    have h2 := h 2 (by decide)
    have h3 := h 3 (by decide)
    norm_num [makeRequest, makeRequestLoop, MAX_RETRIES, RETRY_DELAY, h0, h1, h2, h3]
  · intro j s hj hs h500 hj2
    have hj3 : j ≤ 3 := hj
    interval_cases j
    · norm_num [makeRequest, makeRequestLoop, MAX_RETRIES, RETRY_DELAY, hj2, hs]
    · have h0 := h500 0 (by norm_num)
      norm_num [makeRequest, makeRequestLoop, MAX_RETRIES, RETRY_DELAY, h0, hj2, hs,
        List.range_succ]
    · have h0 := h500 0 (by norm_num)
      have h1 := h500 1 (by norm_num)
      norm_num [makeRequest, makeRequestLoop, MAX_RETRIES, RETRY_DELAY, h0, h1, hj2, hs,
        List.range_succ]
    · have h0 := h500 0 (by norm_num)
      have h1 := h500 1 (by norm_num)
      have h2 := h500 2 (by norm_num)
      norm_num [makeRequest, makeRequestLoop, MAX_RETRIES, RETRY_DELAY, h0, h1, h2, hj2, hs,
        List.range_succ]
  · intro j v hj h500 hj2
    have hj3 : j ≤ 3 := hj
    interval_cases j
    · norm_num [makeRequest, makeRequestLoop, MAX_RETRIES, RETRY_DELAY, hj2]
    · have h0 := h500 0 (by norm_num)
      norm_num [makeRequest, makeRequestLoop, MAX_RETRIES, RETRY_DELAY, h0, hj2,
        List.range_succ]
    · have h0 := h500 0 (by norm_num)
      have h1 := h500 1 (by norm_num)
      norm_num [makeRequest, makeRequestLoop, MAX_RETRIES, RETRY_DELAY, h0, h1, hj2,
        List.range_succ]
    · have h0 := h500 0 (by norm_num)
      have h1 := h500 1 (by norm_num)
      have h2 := h500 2 (by norm_num)
      norm_num [makeRequest, makeRequestLoop, MAX_RETRIES, RETRY_DELAY, h0, h1, h2, hj2,
        List.range_succ]

def send500 : Nat → ReqResult Nat := fun _ => ReqResult.httpErr 500

def fbNone : Nat → Option Nat := fun _ => none

theorem C2_retry_policy_witness :
    makeRequest send500 fbNone =
      ⟨Except.error (ReqError.httpError 500), 4, 0, [2, 4, 8]⟩ :=
  (C2_retry_policy send500 fbNone).1 (fun _ _ => rfl)

/-- Claim C8: through the request core, a TLS certificate validation
failure triggers exactly one fallback request with certificate
validation disabled; if the fallback succeeds its response is returned,
and if it fails its error propagates with no further attempts (one
verified request, one fallback request, no backoff delays). -/
theorem C8_ssl_fallback {α : Type} (send : Nat → ReqResult α) (fb : Nat → Option α)
    (h : send 0 = ReqResult.sslErr) :
    (∀ v, fb 0 = some v → makeRequest send fb = ⟨Except.ok v, 1, 1, []⟩)
  ∧ (fb 0 = none →
      makeRequest send fb = ⟨Except.error ReqError.fallbackFailed, 1, 1, []⟩) := by
  constructor
  · intro v hv
    simp [makeRequest, makeRequestLoop, MAX_RETRIES, h, hv]
  · intro hv
    simp [makeRequest, makeRequestLoop, MAX_RETRIES, h, hv]

def sendSsl : Nat → ReqResult Nat := fun _ => ReqResult.sslErr

theorem C8_ssl_fallback_witness :
    makeRequest sendSsl fbNone = ⟨Except.error ReqError.fallbackFailed, 1, 1, []⟩ :=
  (C8_ssl_fallback sendSsl fbNone rfl).2 rfl

/-! ## Data model of the migration (dify_migration.py)

A wire segment may lack the content field, modelled by an Option; a
document carries its segments; an export unit is the
{dataset, documents} snapshot produced by export_dataset.  A source
dataset additionally records whether the environment makes its export
raise (used by the per-object error-handling claims).  The target
instance is a list of datasets, each holding the documents created in
it; the state counts dataset-create and document-create requests so
that write operations are observable. -/

structure Segment where
  content : Option String
deriving DecidableEq

structure DocumentData where
  name : String
  segments : List Segment
deriving DecidableEq

structure ExportUnit where
  name : String
  description : String
  documents : List DocumentData
deriving DecidableEq

structure SourceDataset where
  unit : ExportUnit
  exportFails : Bool
deriving DecidableEq

structure TargetDoc where
  name : String
  text : String
deriving DecidableEq

structure TargetDataset where
  id : Nat
  name : String
  description : String
  docs : List TargetDoc
deriving DecidableEq

structure TargetState where
  datasets : List TargetDataset
  creates : Nat
  docCreates : Nat
deriving DecidableEq

structure Counters where
  total : Nat
  success : Nat
  skipped : Nat
  failed : Nat
deriving DecidableEq

def namesOf (st : TargetState) : List String :=
  st.datasets.map (fun ds => ds.name)

def emptyTarget : TargetState := ⟨[], 0, 0⟩

/-- The combined text of DifyMigration._import_document (line 729):
join the contents of exactly those segments that possess a content
field, in order, with a blank-line separator. -/
def combinedText (segments : List Segment) : String :=
  String.intercalate "\n\n"
    ((segments.filter (fun seg => seg.content.isSome)).map (fun seg => seg.content.getD ""))

/-- DifyMigration._import_document (lines 716-744): the
create_document_by_text request issued for one document, or none when
the combined text is empty (Python string truthiness) and the document
is skipped without any write. -/
def importDocumentRequest (doc : DocumentData) : Option (String × String) :=
  let combined := combinedText doc.segments
  if combined = "" then none else some (doc.name, combined)

def addDocToDataset (st : TargetState) (id : Nat) (d : TargetDoc) : TargetState :=
  { st with
    datasets := st.datasets.map
      (fun ds => if ds.id = id then { ds with docs := ds.docs ++ [d] } else ds),
    docCreates := st.docCreates + 1 }

/-- One iteration of the document loop of import_dataset (lines
698-711): _import_document, then success_count += 1.  The counter is
incremented whether or not the document was skipped for empty content,
because _import_document returns normally in both cases. -/
def importDocStep (id : Nat) (acc : TargetState × Nat) (doc : DocumentData) :
    TargetState × Nat :=
  match importDocumentRequest doc with
  | some nt => (addDocToDataset acc.1 id ⟨nt.1, nt.2⟩, acc.2 + 1)
  | none => (acc.1, acc.2 + 1)

def importDocuments (st : TargetState) (id : Nat) (docs : List DocumentData) :
    TargetState × Nat :=
  docs.foldl (importDocStep id) (st, 0)

def findByName (st : TargetState) (nm : String) : Option TargetDataset :=
  st.datasets.find? (fun ds => ds.name == nm)

/-- DifyMigration.import_dataset (lines 654-714), with the
document imports succeeding: look up the target dataset by name; if present and
skip_existing, return none; if present and not skip_existing, reuse the
existing id; if absent and auto_create, create it; else return none.
The returned id is none exactly when the dataset was not imported. -/
def importDataset (st : TargetState) (u : ExportUnit) (skipExisting autoCreate : Bool) :
    TargetState × Option Nat :=
  match findByName st u.name with
  | some existing =>
      if skipExisting then (st, none)
      else ((importDocuments st existing.id u.documents).1, some existing.id)
  | none =>
      if autoCreate then
        let newId := st.datasets.length
        let created : TargetState :=
          { st with
            datasets := st.datasets ++ [⟨newId, u.name, u.description, []⟩],
            creates := st.creates + 1 }
        ((importDocuments created newId u.documents).1, some newId)
      else (st, none)

/-! ## The two execution strategies (dify_migration.py lines 778-887) -/

structure StreamAcc where
  st : TargetState
  existingNames : List String
  counters : Counters
deriving DecidableEq

/-- One iteration of the per-dataset loop of _migrate_streaming (lines
808-839): count the object, skip it when skip_existing holds and its
name is in the existing-name set, fail it when its export raises,
otherwise import with skip_existing=False and count the outcome, adding
the name to the set on success. -/
def streamStep (skipExisting autoCreate : Bool) (acc : StreamAcc) (d : SourceDataset) :
    StreamAcc :=
  let c := { acc.counters with total := acc.counters.total + 1 }
  if skipExisting ∧ d.unit.name ∈ acc.existingNames then
    { acc with counters := { c with skipped := c.skipped + 1 } }
  else if d.exportFails then
    { acc with counters := { c with failed := c.failed + 1 } }
  else
    match importDataset acc.st d.unit false autoCreate with
    | (st2, some _) =>
        ⟨st2, acc.existingNames ++ [d.unit.name], { c with success := c.success + 1 }⟩
    | (st2, none) =>
        ⟨st2, acc.existingNames, { c with skipped := c.skipped + 1 }⟩

/-- DifyMigration._migrate_streaming (lines 778-851): the existing-name
set is seeded once from the target listing, then every dataset of every
source is processed in turn. -/
def migrateStreaming (skipExisting autoCreate : Bool) (sources : List (List SourceDataset))
    (st0 : TargetState) : StreamAcc :=
  sources.foldl (fun acc src => src.foldl (streamStep skipExisting autoCreate) acc)
    ⟨st0, namesOf st0, ⟨0, 0, 0, 0⟩⟩

/-- DifyMigration.export_all_datasets (lines 625-652): datasets whose
export raises are logged and left out of the exported list (they are
not counted by the batch import loop). -/
def exportAllDatasets (sources : List (List SourceDataset)) : List SourceDataset :=
  sources.flatten.filter (fun d => !d.exportFails)

/-- One iteration of the import loop of _migrate_batch (lines 868-878):
call import_dataset with the run policy flags; a none result counts as
skipped, a some result as success. -/
def batchStep (skipExisting autoCreate : Bool) (acc : TargetState × Counters)
    (d : SourceDataset) : TargetState × Counters :=
  match importDataset acc.1 d.unit skipExisting autoCreate with
  | (st2, some _) =>
      (st2, { acc.2 with total := acc.2.total + 1, success := acc.2.success + 1 })
  | (st2, none) =>
      (st2, { acc.2 with total := acc.2.total + 1, skipped := acc.2.skipped + 1 })

/-- DifyMigration._migrate_batch (lines 853-887): export everything
first, then import each exported unit. -/
def migrateBatch (skipExisting autoCreate : Bool) (sources : List (List SourceDataset))
    (st0 : TargetState) : TargetState × Counters :=
  (exportAllDatasets sources).foldl (batchStep skipExisting autoCreate)
    (st0, ⟨0, 0, 0, 0⟩)

/-! ## Apps (dify_migration.py lines 957-1116) -/

structure SourceApp where
  name : String
  dsl : String
deriving DecidableEq

structure AppState where
  apps : List (String × String)
  dslImports : Nat
deriving DecidableEq

def appNames (ast : AppState) : List String := ast.apps.map Prod.fst

/-- DifyMigration.import_app (lines 957-998): if an app of the same
name exists and skip_existing holds, skip; otherwise import the DSL,
which always creates a new app (a duplicate when the name exists). -/
def importApp (ast : AppState) (a : SourceApp) (skipExisting : Bool) :
    AppState × Option Nat :=
  match ast.apps.find? (fun p => p.1 == a.name) with
  | some _ =>
      if skipExisting then (ast, none)
      else
        ({ apps := ast.apps ++ [(a.name, a.dsl)], dslImports := ast.dslImports + 1 },
         some ast.apps.length)
  | none =>
      ({ apps := ast.apps ++ [(a.name, a.dsl)], dslImports := ast.dslImports + 1 },
       some ast.apps.length)

structure AppStreamAcc where
  ast : AppState
  existingNames : List String
  counters : Counters
deriving DecidableEq

/-- One iteration of the per-app loop of _migrate_apps_streaming (lines
1072-1104). -/
def appStreamStep (skipExisting : Bool) (acc : AppStreamAcc) (a : SourceApp) :
    AppStreamAcc :=
  let c := { acc.counters with total := acc.counters.total + 1 }
  if skipExisting ∧ a.name ∈ acc.existingNames then
    { acc with counters := { c with skipped := c.skipped + 1 } }
  else
    match importApp acc.ast a false with
    | (ast2, some _) =>
        ⟨ast2, acc.existingNames ++ [a.name], { c with success := c.success + 1 }⟩
    | (ast2, none) =>
        ⟨ast2, acc.existingNames, { c with skipped := c.skipped + 1 }⟩

/-- DifyMigration._migrate_apps_streaming (lines 1044-1116). -/
def migrateAppsStreaming (skipExisting : Bool) (sources : List (List SourceApp))
    (ast0 : AppState) : AppStreamAcc :=
  sources.foldl (fun acc src => src.foldl (appStreamStep skipExisting) acc)
    ⟨ast0, appNames ast0, ⟨0, 0, 0, 0⟩⟩

/-! ## Parallel pipelines (DifyMigration.migrate_all_with_apps, lines 1179-1227)

Each thread body wraps its whole pipeline in a try/except that captures
an exception into its own error slot; after both joins the run reports
both outcomes.  The two pipelines operate on disjoint state (the
dataset pipeline on the TargetState, the app pipeline on the AppState,
each with its own existing-name set), so each outcome is a function of
the input of its own pipeline alone. -/

structure ParallelReport where
  kbError : Option String
  appError : Option String
  kbCounters : Option Counters
  appCounters : Option Counters
deriving DecidableEq

def migrateAllWithAppsParallel (kbRun : Except String StreamAcc)
    (appRun : Except String AppStreamAcc) : ParallelReport :=
  { kbError := match kbRun with | Except.ok _ => none | Except.error e => some e
    appError := match appRun with | Except.ok _ => none | Except.error e => some e
    kbCounters := match kbRun with | Except.ok r => some r.counters | Except.error _ => none
    appCounters :=
      match appRun with | Except.ok r => some r.counters | Except.error _ => none }

/-! ## Theorems: combined text (claim C10) -/

lemma contentList_eq_filterMap (l : List Segment) :
    (l.filter (fun seg => seg.content.isSome)).map (fun seg => seg.content.getD "") =
      l.filterMap Segment.content := by
  induction l with
  | nil => rfl
  | cons s t ih =>
      cases h : s.content <;>
        simp [List.filter_cons, List.filterMap_cons, h, ih]

lemma combinedText_eq (l : List Segment) :
    combinedText l = String.intercalate "\n\n" (l.filterMap Segment.content) := by
  rw [combinedText, contentList_eq_filterMap]

/-- Claim C10: the combined text of a document is built from exactly
those segments that possess a content field, in their original order,
joined by a blank-line separator; a segment lacking the content field
is silently excluded rather than causing an error. -/
theorem C10_content_field_selection (segs pre post : List Segment) (s : Segment) :
    combinedText segs = String.intercalate "\n\n" (segs.filterMap Segment.content)
  ∧ (s.content = none →
      combinedText (pre ++ s :: post) = combinedText (pre ++ post)) := by
  constructor
  · exact combinedText_eq segs
  · intro hs
    simp [combinedText, List.filter_append, List.filter_cons, hs]

theorem C10_content_field_selection_witness :
    combinedText ([] ++ Segment.mk none :: [Segment.mk (some "a")]) =
      combinedText ([] ++ [Segment.mk (some "a")]) :=
  (C10_content_field_selection [] [] [Segment.mk (some "a")] ⟨none⟩).2 rfl

/-! ## Theorems: empty-content documents (claim C5)

The claim fails on the code: a document whose segments all carry the
empty string as content yields, for two or more such segments, the
combined text consisting only of blank-line separators, which is a
non-empty (truthy) string, so a create_document_by_text request IS
issued.  Moreover a document that is skipped for empty content still
increments the per-dataset document success counter of import_dataset,
because _import_document returns normally. -/

theorem C5_counterexample :
    importDocumentRequest ⟨"d", [⟨some ""⟩, ⟨some ""⟩]⟩ = some ("d", "\n\n")
  ∧ (importDocuments emptyTarget 0 [⟨"e", [⟨some ""⟩]⟩]).1 = emptyTarget
  ∧ (importDocuments emptyTarget 0 [⟨"e", [⟨some ""⟩]⟩]).2 = 1 := by
  refine ⟨?_, ?_, ?_⟩ <;> rfl

/-- Claim C5 (amended): a document is imported as a no-op (no
document-creation request, target unchanged) exactly when its combined
text is empty, that is when it has no content-bearing segment or a
single content-bearing segment whose content is the empty string; such
a document is nevertheless counted by the per-dataset document success
counter.  For documents with non-empty combined text, the import
payload is the content-bearing segment contents joined by a blank-line
separator. -/
theorem C5_empty_content_amended (doc : DocumentData) (st : TargetState) (id : Nat) :
    (doc.segments.filterMap Segment.content = [] → importDocumentRequest doc = none)
  ∧ (doc.segments.filterMap Segment.content = [""] → importDocumentRequest doc = none)
  ∧ (importDocumentRequest doc = none → importDocuments st id [doc] = (st, 1))
  ∧ (combinedText doc.segments ≠ "" →
      importDocumentRequest doc = some (doc.name, combinedText doc.segments)) := by
  refine ⟨?_, ?_, ?_, ?_⟩
  · intro h
    unfold importDocumentRequest
    rw [combinedText_eq, h]
    rfl
  · intro h
    unfold importDocumentRequest
    rw [combinedText_eq, h]
    rfl
  · intro h
    simp [importDocuments, importDocStep, h]
  · intro h
    unfold importDocumentRequest
    simp [h]

theorem C5_empty_content_amended_witness :
    importDocumentRequest ⟨"w", [⟨none⟩]⟩ = none
  ∧ importDocuments emptyTarget 0 [⟨"w", [⟨none⟩]⟩] = (emptyTarget, 1) := by
  have h := C5_empty_content_amended ⟨"w", [⟨none⟩]⟩ emptyTarget 0
  exact ⟨h.1 rfl, h.2.2.1 (h.1 rfl)⟩

/-! ## Theorems: target-id policy (claim C4)

The claim fails on the code in two places.  For datasets, an absent
name with auto_create disabled makes import_dataset return None, which
both _migrate_batch and _migrate_streaming count as Skipped, not
Failed.  For apps, when the name exists and skip_existing is false the
DSL import creates a new duplicate app; the existing id is not
reused. -/

lemma foldl_importDocStep_creates (id : Nat) :
    ∀ (docs : List DocumentData) (p : TargetState × Nat),
      ((docs.foldl (importDocStep id) p).1).creates = p.1.creates := by
  intro docs
  induction docs with
  | nil => intro p; rfl
  | cons d t ih =>
      intro p
      rw [List.foldl_cons, ih]
      cases h : importDocumentRequest d <;> simp [importDocStep, h, addDocToDataset]

lemma importDocuments_creates (st : TargetState) (id : Nat) (docs : List DocumentData) :
    (importDocuments st id docs).1.creates = st.creates :=
  foldl_importDocStep_creates id docs (st, 0)

lemma namesOf_addDoc (st : TargetState) (id : Nat) (d : TargetDoc) :
    namesOf (addDocToDataset st id d) = namesOf st := by
  unfold namesOf addDocToDataset
  simp only [List.map_map]
  refine List.map_congr_left ?_
  intro a _
  by_cases h : a.id = id <;> simp [h]

lemma foldl_importDocStep_names (id : Nat) :
    ∀ (docs : List DocumentData) (p : TargetState × Nat),
      namesOf ((docs.foldl (importDocStep id) p).1) = namesOf p.1 := by
  intro docs
  induction docs with
  | nil => intro p; rfl
  | cons d t ih =>
      intro p
      rw [List.foldl_cons, ih]
      cases h : importDocumentRequest d <;> simp [importDocStep, h, namesOf_addDoc]

lemma importDocuments_names (st : TargetState) (id : Nat) (docs : List DocumentData) :
    namesOf (importDocuments st id docs).1 = namesOf st :=
  foldl_importDocStep_names id docs (st, 0)

lemma findByName_isSome_iff (st : TargetState) (nm : String) :
    (findByName st nm).isSome ↔ nm ∈ namesOf st := by
  unfold findByName namesOf
  rw [List.find?_isSome]
  simp [List.mem_map, beq_iff_eq]

lemma findByName_eq_none_iff (st : TargetState) (nm : String) :
    findByName st nm = none ↔ nm ∉ namesOf st := by
  rw [← findByName_isSome_iff]
  cases h : findByName st nm <;> simp [h]

lemma findByName_some_mem {st : TargetState} {nm : String} {ex : TargetDataset}
    (h : findByName st nm = some ex) : nm ∈ namesOf st :=
  (findByName_isSome_iff st nm).mp (by simp [h])

theorem C4_counterexample :
    (migrateBatch false false [[⟨⟨"A", "", []⟩, false⟩]] emptyTarget).2 = ⟨1, 0, 1, 0⟩
  ∧ (importApp ⟨[("A", "x")], 0⟩ ⟨"A", "y"⟩ false).1.apps.length = 2 := by
  exact ⟨rfl, rfl⟩

/-- Claim C4 (amended): for a fetched dataset, if an object of the same
name exists in the target and skipExisting is false, the existing id is
reused and no dataset-create request is issued; if the name is absent
and autoCreate is true, a new dataset is created; if the name is absent
and autoCreate is false, the dataset is not imported (no id) and is
counted as Skipped, not Failed.  For a fetched app that is not skipped,
the DSL import always creates a new app (a duplicate when the name
exists); the existing id is never reused. -/
theorem C4_target_id_amended (st : TargetState) (u : ExportUnit) (auto : Bool)
    (c : Counters) (d : SourceDataset) (ast : AppState) (a : SourceApp) :
    (∀ ex, findByName st u.name = some ex →
        importDataset st u false auto =
          ((importDocuments st ex.id u.documents).1, some ex.id) ∧
        (importDataset st u false auto).1.creates = st.creates)
  ∧ (findByName st u.name = none → auto = true →
        (importDataset st u false auto).2 = some st.datasets.length ∧
        (importDataset st u false auto).1.creates = st.creates + 1)
  ∧ (findByName st d.unit.name = none →
        importDataset st d.unit false false = (st, none) ∧
        batchStep false false (st, c) d =
          (st, { c with total := c.total + 1, skipped := c.skipped + 1 }))
  ∧ importApp ast a false =
      ({ apps := ast.apps ++ [(a.name, a.dsl)], dslImports := ast.dslImports + 1 },
       some ast.apps.length) := by
  refine ⟨?_, ?_, ?_, ?_⟩
  · intro ex h
    refine ⟨by simp [importDataset, h], ?_⟩
    simp [importDataset, h, importDocuments_creates]
  · intro h hauto
    subst hauto
    refine ⟨by simp [importDataset, h], ?_⟩
    simp [importDataset, h, importDocuments_creates]
  · intro h
    refine ⟨by simp [importDataset, h], ?_⟩
    simp [batchStep, importDataset, h]
  · cases hf : ast.apps.find? (fun p => p.1 == a.name) <;> simp [importApp, hf]

def c4st : TargetState := ⟨[⟨0, "A", "", []⟩], 0, 0⟩

theorem C4_target_id_amended_witness :
    importDataset c4st ⟨"A", "", []⟩ false true =
      ((importDocuments c4st 0 []).1, some 0)
  ∧ (importDataset emptyTarget ⟨"B", "", []⟩ false true).2 = some 0 := by
  have h1 := C4_target_id_amended c4st ⟨"A", "", []⟩ true ⟨0, 0, 0, 0⟩
    ⟨⟨"A", "", []⟩, false⟩ ⟨[], 0⟩ ⟨"A", "x"⟩
  have h2 := C4_target_id_amended emptyTarget ⟨"B", "", []⟩ true ⟨0, 0, 0, 0⟩
    ⟨⟨"B", "", []⟩, false⟩ ⟨[], 0⟩ ⟨"B", "x"⟩
  exact ⟨(h1.1 ⟨0, "A", "", []⟩ rfl).1, (h2.2.1 rfl rfl).1⟩

/-! ## Theorems: idempotent second run (claim C6) -/

lemma streamFold_all_skip (auto : Bool) :
    ∀ (units : List SourceDataset) (st : TargetState) (E : List String) (c : Counters),
      (∀ d ∈ units, d.unit.name ∈ E) →
      units.foldl (streamStep true auto) ⟨st, E, c⟩ =
        ⟨st, E, ⟨c.total + units.length, c.success, c.skipped + units.length, c.failed⟩⟩ := by
  intro units
  induction units with
  | nil => intro st E c _; simp
  | cons d t ih =>
      intro st E c h
      obtain ⟨ct, cs, ck, cf⟩ := c
      have hd : d.unit.name ∈ E := h d (by simp)
      rw [List.foldl_cons]
      have hstep : streamStep true auto ⟨st, E, ⟨ct, cs, ck, cf⟩⟩ d =
          ⟨st, E, ⟨ct + 1, cs, ck + 1, cf⟩⟩ := by
        simp [streamStep, hd]
      rw [hstep, ih st E _ (fun x hx => h x (by simp [hx]))]
      simp [StreamAcc.mk.injEq, Counters.mk.injEq]
      omega

lemma appFold_all_skip :
    ∀ (units : List SourceApp) (ast : AppState) (E : List String) (c : Counters),
      (∀ a ∈ units, a.name ∈ E) →
      units.foldl (appStreamStep true) ⟨ast, E, c⟩ =
        ⟨ast, E, ⟨c.total + units.length, c.success, c.skipped + units.length, c.failed⟩⟩ := by
  intro units
  induction units with
  | nil => intro ast E c _; simp
  | cons a t ih =>
      intro ast E c h
      obtain ⟨ct, cs, ck, cf⟩ := c
      have ha : a.name ∈ E := h a (by simp)
      rw [List.foldl_cons]
      have hstep : appStreamStep true ⟨ast, E, ⟨ct, cs, ck, cf⟩⟩ a =
          ⟨ast, E, ⟨ct + 1, cs, ck + 1, cf⟩⟩ := by
        simp [appStreamStep, ha]
      rw [hstep, ih ast E _ (fun x hx => h x (by simp [hx]))]
      simp [AppStreamAcc.mk.injEq, Counters.mk.injEq]
      omega

/-- Claim C6: running the migration again with skipExisting=true against
a target that already contains every source dataset and app by name
leaves the target state untouched (in particular zero create requests)
and reports every object as Skipped: the skipped counter equals the
total, and the success and failed counters are zero; this holds for
both the dataset and the app streaming pipeline. -/
theorem C6_second_run_all_skipped (auto : Bool) (sd : List (List SourceDataset))
    (st0 : TargetState) (sa : List (List SourceApp)) (ast0 : AppState)
    (hd : ∀ d ∈ sd.flatten, d.unit.name ∈ namesOf st0)
    (ha : ∀ a ∈ sa.flatten, a.name ∈ appNames ast0) :
    migrateStreaming true auto sd st0 =
      ⟨st0, namesOf st0, ⟨sd.flatten.length, 0, sd.flatten.length, 0⟩⟩
  ∧ migrateAppsStreaming true sa ast0 =
      ⟨ast0, appNames ast0, ⟨sa.flatten.length, 0, sa.flatten.length, 0⟩⟩ := by
  constructor
  · rw [migrateStreaming, ← List.foldl_flatten]
    have h := streamFold_all_skip auto sd.flatten st0 (namesOf st0) ⟨0, 0, 0, 0⟩ hd
    simpa using h
  · rw [migrateAppsStreaming, ← List.foldl_flatten]
    have h := appFold_all_skip sa.flatten ast0 (appNames ast0) ⟨0, 0, 0, 0⟩ ha
    simpa using h

theorem C6_second_run_all_skipped_witness :
    migrateStreaming true true [[⟨⟨"A", "x", []⟩, false⟩]] c4st =
      ⟨c4st, namesOf c4st, ⟨1, 0, 1, 0⟩⟩
  ∧ migrateAppsStreaming true [[⟨"B", "y"⟩]] ⟨[("B", "d")], 0⟩ =
      ⟨⟨[("B", "d")], 0⟩, appNames ⟨[("B", "d")], 0⟩, ⟨1, 0, 1, 0⟩⟩ :=
  C6_second_run_all_skipped true [[⟨⟨"A", "x", []⟩, false⟩]] c4st
    [[⟨"B", "y"⟩]] ⟨[("B", "d")], 0⟩ (by decide) (by decide)

/-! ## Theorems: per-object failure isolation (claim C7) -/

def Counters.add (a b : Counters) : Counters :=
  ⟨a.total + b.total, a.success + b.success, a.skipped + b.skipped, a.failed + b.failed⟩

lemma streamStep_counters_shift (skipEx auto : Bool) (st : TargetState) (E : List String)
    (c d : Counters) (u : SourceDataset) :
    streamStep skipEx auto ⟨st, E, Counters.add c d⟩ u =
      ⟨(streamStep skipEx auto ⟨st, E, c⟩ u).st,
       (streamStep skipEx auto ⟨st, E, c⟩ u).existingNames,
       Counters.add (streamStep skipEx auto ⟨st, E, c⟩ u).counters d⟩ := by
  obtain ⟨ct, cs, ck, cf⟩ := c
  obtain ⟨dt, ds, dk, df⟩ := d
  by_cases h1 : (skipEx = true) ∧ u.unit.name ∈ E
  · simp [streamStep, h1, Counters.add, StreamAcc.mk.injEq, Counters.mk.injEq]
    omega
  · by_cases h2 : u.exportFails = true
    · simp [streamStep, h1, h2, Counters.add, StreamAcc.mk.injEq, Counters.mk.injEq]
      omega
    · rcases him : importDataset st u.unit false auto with ⟨st2, res⟩
      cases res <;>
        (simp [streamStep, h1, h2, him, Counters.add, StreamAcc.mk.injEq,
          Counters.mk.injEq]
         omega)

lemma streamFold_counters_shift (skipEx auto : Bool) :
    ∀ (units : List SourceDataset) (st : TargetState) (E : List String) (c d : Counters),
      units.foldl (streamStep skipEx auto) ⟨st, E, Counters.add c d⟩ =
        ⟨(units.foldl (streamStep skipEx auto) ⟨st, E, c⟩).st,
         (units.foldl (streamStep skipEx auto) ⟨st, E, c⟩).existingNames,
         Counters.add (units.foldl (streamStep skipEx auto) ⟨st, E, c⟩).counters d⟩ := by
  intro units
  induction units with
  | nil => intro st E c d; rfl
  | cons u t ih =>
      intro st E c d
      rw [List.foldl_cons, List.foldl_cons, streamStep_counters_shift]
      exact ih _ _ _ d

lemma streamStep_fail (skipEx auto : Bool) (acc : StreamAcc) (f : SourceDataset)
    (hf : f.exportFails = true)
    (hns : ¬(skipEx = true ∧ f.unit.name ∈ acc.existingNames)) :
    streamStep skipEx auto acc f =
      ⟨acc.st, acc.existingNames, Counters.add acc.counters ⟨1, 0, 0, 1⟩⟩ := by
  obtain ⟨s, e, ⟨ct, cs, ck, cf⟩⟩ := acc
  simp only [StreamAcc.mk.injEq] at hns ⊢
  simp [streamStep, hf, hns, Counters.add]

/-- In the streaming pipeline, a dataset whose export raises only bumps
the total and failed counters by one: the target state, the name set
and the processing of every other object are those of the run without
the failing object. -/
lemma streamRun_insert_fail (skipEx auto : Bool)
    (us1 us2 : List SourceDataset) (f : SourceDataset) (st0 : TargetState)
    (hf : f.exportFails = true)
    (hns : ¬(skipEx = true ∧ f.unit.name ∈
        (us1.foldl (streamStep skipEx auto)
          ⟨st0, namesOf st0, ⟨0, 0, 0, 0⟩⟩).existingNames)) :
    (migrateStreaming skipEx auto [us1 ++ f :: us2] st0).st =
      (migrateStreaming skipEx auto [us1 ++ us2] st0).st
  ∧ (migrateStreaming skipEx auto [us1 ++ f :: us2] st0).existingNames =
      (migrateStreaming skipEx auto [us1 ++ us2] st0).existingNames
  ∧ (migrateStreaming skipEx auto [us1 ++ f :: us2] st0).counters =
      Counters.add (migrateStreaming skipEx auto [us1 ++ us2] st0).counters
        ⟨1, 0, 0, 1⟩ := by
  have hfull : migrateStreaming skipEx auto [us1 ++ f :: us2] st0 =
      us2.foldl (streamStep skipEx auto)
        (streamStep skipEx auto
          (us1.foldl (streamStep skipEx auto) ⟨st0, namesOf st0, ⟨0, 0, 0, 0⟩⟩) f) := by
    show (us1 ++ f :: us2).foldl (streamStep skipEx auto)
        ⟨st0, namesOf st0, ⟨0, 0, 0, 0⟩⟩ = _
    rw [List.foldl_append, List.foldl_cons]
  have hwo : migrateStreaming skipEx auto [us1 ++ us2] st0 =
      us2.foldl (streamStep skipEx auto)
        (us1.foldl (streamStep skipEx auto) ⟨st0, namesOf st0, ⟨0, 0, 0, 0⟩⟩) := by
    show (us1 ++ us2).foldl (streamStep skipEx auto)
        ⟨st0, namesOf st0, ⟨0, 0, 0, 0⟩⟩ = _
    rw [List.foldl_append]
  rw [hfull, hwo,
    streamStep_fail skipEx auto _ f hf hns]
  have hshift := streamFold_counters_shift skipEx auto us2
    (us1.foldl (streamStep skipEx auto) ⟨st0, namesOf st0, ⟨0, 0, 0, 0⟩⟩).st
    (us1.foldl (streamStep skipEx auto) ⟨st0, namesOf st0, ⟨0, 0, 0, 0⟩⟩).existingNames
    (us1.foldl (streamStep skipEx auto) ⟨st0, namesOf st0, ⟨0, 0, 0, 0⟩⟩).counters
    ⟨1, 0, 0, 1⟩
  rw [hshift]
  exact ⟨rfl, rfl, rfl⟩

def c7a : SourceDataset := ⟨⟨"A", "", []⟩, false⟩

def c7bad : SourceDataset := ⟨⟨"B", "", []⟩, true⟩

def c7c : SourceDataset := ⟨⟨"C", "", []⟩, false⟩

/-- In the batch pipeline, a dataset whose export raises is dropped by
export_all_datasets before the import loop, so the whole run equals the
run without the failing object: no counter, in particular not the
failed one, records it. -/
lemma batchRun_drop_fail (skipEx auto : Bool) (us1 us2 : List SourceDataset)
    (f : SourceDataset) (st0 : TargetState) (hf : f.exportFails = true) :
    migrateBatch skipEx auto [us1 ++ f :: us2] st0 =
      migrateBatch skipEx auto [us1 ++ us2] st0 := by
  unfold migrateBatch exportAllDatasets
  simp [List.filter_append, List.filter_cons, hf]

theorem C7_counterexample :
    (migrateBatch true true [[c7bad]] emptyTarget).2.failed = 0
  ∧ (migrateBatch true true [[c7bad]] emptyTarget).2.total = 0 := by
  exact ⟨rfl, rfl⟩

/-- Claim C7 (amended): for an object whose export raises, the two
strategies differ.  In the streaming strategy the failure is caught
inside the per-object loop: it increments the failed counter and the
total exactly once, leaves the target state and the existing-name set
untouched, and the remaining objects are processed exactly as if the
failing object were absent, so no per-object failure aborts the
pipeline.  In the batch strategy the export failure is instead caught
inside export_all_datasets and the object is dropped from the run
entirely: the final state and all counters, including failed and total,
equal those of the run without that object, so the failure is never
counted. -/
theorem C7_per_object_failure_amended (skipEx auto : Bool)
    (us1 us2 : List SourceDataset) (f : SourceDataset) (st0 : TargetState)
    (hf : f.exportFails = true)
    (hns : ¬(skipEx = true ∧ f.unit.name ∈
        (us1.foldl (streamStep skipEx auto)
          ⟨st0, namesOf st0, ⟨0, 0, 0, 0⟩⟩).existingNames)) :
    ((migrateStreaming skipEx auto [us1 ++ f :: us2] st0).st =
        (migrateStreaming skipEx auto [us1 ++ us2] st0).st
      ∧ (migrateStreaming skipEx auto [us1 ++ f :: us2] st0).existingNames =
          (migrateStreaming skipEx auto [us1 ++ us2] st0).existingNames
      ∧ (migrateStreaming skipEx auto [us1 ++ f :: us2] st0).counters =
          Counters.add (migrateStreaming skipEx auto [us1 ++ us2] st0).counters
            ⟨1, 0, 0, 1⟩)
  ∧ migrateBatch skipEx auto [us1 ++ f :: us2] st0 =
      migrateBatch skipEx auto [us1 ++ us2] st0 :=
  ⟨streamRun_insert_fail skipEx auto us1 us2 f st0 hf hns,
   batchRun_drop_fail skipEx auto us1 us2 f st0 hf⟩

theorem C7_per_object_failure_amended_witness :
    ((migrateStreaming true true [[c7a] ++ c7bad :: [c7c]] emptyTarget).st =
        (migrateStreaming true true [[c7a] ++ [c7c]] emptyTarget).st
      ∧ (migrateStreaming true true [[c7a] ++ c7bad :: [c7c]] emptyTarget).existingNames =
          (migrateStreaming true true [[c7a] ++ [c7c]] emptyTarget).existingNames
      ∧ (migrateStreaming true true [[c7a] ++ c7bad :: [c7c]] emptyTarget).counters =
          Counters.add
            (migrateStreaming true true [[c7a] ++ [c7c]] emptyTarget).counters
            ⟨1, 0, 0, 1⟩)
  ∧ migrateBatch true true [[c7a] ++ c7bad :: [c7c]] emptyTarget =
      migrateBatch true true [[c7a] ++ [c7c]] emptyTarget :=
  C7_per_object_failure_amended true true [c7a] [c7c] c7bad emptyTarget rfl (by decide)

/-! ## Theorems: streaming equals batch (claim C3)

The invariant tying the two strategies together: the existing-name set
maintained incrementally by the streaming loop is membership-equivalent
to the set of dataset names actually present in the target, which is
what the batch loop re-queries through import_dataset on every
object. -/

lemma mem_append_singleton_of_inv {E names : List String} {nm : String}
    (hinv : ∀ x, x ∈ E ↔ x ∈ names) (hmem : nm ∈ names) :
    ∀ x, x ∈ E ++ [nm] ↔ x ∈ names := by
  intro x
  rw [List.mem_append, List.mem_singleton]
  constructor
  · rintro (h | rfl)
    · exact (hinv x).mp h
    · exact hmem
  · intro h
    exact Or.inl ((hinv x).mpr h)

lemma batch_eq_stream_fold (skipEx auto : Bool) :
    ∀ (units : List SourceDataset) (st : TargetState) (E : List String) (c : Counters),
      (∀ n, n ∈ E ↔ n ∈ namesOf st) →
      (∀ d ∈ units, d.exportFails = false) →
      units.foldl (batchStep skipEx auto) (st, c) =
        ((units.foldl (streamStep skipEx auto) ⟨st, E, c⟩).st,
         (units.foldl (streamStep skipEx auto) ⟨st, E, c⟩).counters) := by
  intro units
  induction units with
  | nil => intro st E c _ _; rfl
  | cons d t ih =>
      intro st E c hinv hok
      have hdok : d.exportFails = false := hok d (by simp)
      have hok2 : ∀ x ∈ t, x.exportFails = false := fun x hx => hok x (by simp [hx])
      rw [List.foldl_cons, List.foldl_cons]
      cases hfind : findByName st d.unit.name with
      | some ex =>
          have hmem : d.unit.name ∈ namesOf st := findByName_some_mem hfind
          have hE : d.unit.name ∈ E := (hinv _).mpr hmem
          cases hsk : skipEx with
          | true =>
              subst hsk
              have hbs : batchStep true auto (st, c) d =
                  (st, { c with total := c.total + 1, skipped := c.skipped + 1 }) := by
                simp [batchStep, importDataset, hfind]
              have hss : streamStep true auto ⟨st, E, c⟩ d =
                  ⟨st, E, { c with total := c.total + 1, skipped := c.skipped + 1 }⟩ := by
                simp [streamStep, hE]
              rw [hbs, hss]
              exact ih st E _ hinv hok2
          | false =>
              subst hsk
              have hres : importDataset st d.unit false auto =
                  ((importDocuments st ex.id d.unit.documents).1, some ex.id) := by
                simp [importDataset, hfind]
              have hbs : batchStep false auto (st, c) d =
                  ((importDocuments st ex.id d.unit.documents).1,
                   { c with total := c.total + 1, success := c.success + 1 }) := by
                simp [batchStep, hres]
              have hss : streamStep false auto ⟨st, E, c⟩ d =
                  ⟨(importDocuments st ex.id d.unit.documents).1,
                   E ++ [d.unit.name],
                   { c with total := c.total + 1, success := c.success + 1 }⟩ := by
                simp [streamStep, hdok, hres]
              rw [hbs, hss]
              refine ih _ _ _ ?_ hok2
              rw [importDocuments_names]
              exact mem_append_singleton_of_inv hinv hmem
      | none =>
          have hmem : d.unit.name ∉ namesOf st := (findByName_eq_none_iff _ _).mp hfind
          have hE : d.unit.name ∉ E := fun h => hmem ((hinv _).mp h)
          cases hauto : auto with
          | false =>
              subst hauto
              have hresb : importDataset st d.unit skipEx false = (st, none) := by
                simp [importDataset, hfind]
              have hress : importDataset st d.unit false false = (st, none) := by
                simp [importDataset, hfind]
              have hbs : batchStep skipEx false (st, c) d =
                  (st, { c with total := c.total + 1, skipped := c.skipped + 1 }) := by
                simp [batchStep, hresb]
              have hss : streamStep skipEx false ⟨st, E, c⟩ d =
                  ⟨st, E, { c with total := c.total + 1, skipped := c.skipped + 1 }⟩ := by
                simp [streamStep, hE, hdok, hress]
              rw [hbs, hss]
              exact ih st E _ hinv hok2
          | true =>
              subst hauto
              rcases him : importDataset st d.unit false true with ⟨st2, res⟩
              have hpair := him
              simp [importDataset, hfind] at hpair
              have hres : res = some st.datasets.length := hpair.2.symm
              have hnames2 : namesOf st2 = namesOf st ++ [d.unit.name] := by
                rw [← hpair.1, importDocuments_names]
                simp [namesOf]
              have hsame : importDataset st d.unit skipEx true =
                  importDataset st d.unit false true := by
                simp [importDataset, hfind]
              have hbs : batchStep skipEx true (st, c) d =
                  (st2, { c with total := c.total + 1, success := c.success + 1 }) := by
                simp [batchStep, hsame, him, hres]
              have hss : streamStep skipEx true ⟨st, E, c⟩ d =
                  ⟨st2, E ++ [d.unit.name],
                   { c with total := c.total + 1, success := c.success + 1 }⟩ := by
                simp [streamStep, hE, hdok, him, hres]
              rw [hbs, hss]
              refine ih _ _ _ ?_ hok2
              rw [hnames2]
              intro x
              simp only [List.mem_append, List.mem_singleton, hinv x]

/-- Claim C3: for the same source contents, target contents and policy
flags, the streaming strategy and the batch strategy produce the
identical final target state and identical summary counters (total,
success, skipped, failed). -/
theorem C3_streaming_batch_equivalence (skipEx auto : Bool)
    (sources : List (List SourceDataset)) (st0 : TargetState)
    (hok : ∀ d ∈ sources.flatten, d.exportFails = false) :
    migrateBatch skipEx auto sources st0 =
      ((migrateStreaming skipEx auto sources st0).st,
       (migrateStreaming skipEx auto sources st0).counters) := by
  have hfilter : exportAllDatasets sources = sources.flatten := by
    unfold exportAllDatasets
    refine List.filter_eq_self.mpr ?_
    intro d hd
    simp [hok d hd]
  rw [migrateBatch, hfilter, migrateStreaming, ← List.foldl_flatten]
  exact batch_eq_stream_fold skipEx auto sources.flatten st0 (namesOf st0)
    ⟨0, 0, 0, 0⟩ (fun n => Iff.rfl) hok

def c3src : List (List SourceDataset) :=
  [[⟨⟨"A", "", [⟨"doc1", [⟨some "hello"⟩]⟩]⟩, false⟩], [⟨⟨"A", "", []⟩, false⟩]]

theorem C3_streaming_batch_equivalence_witness :
    migrateBatch true true c3src emptyTarget =
      ((migrateStreaming true true c3src emptyTarget).st,
       (migrateStreaming true true c3src emptyTarget).counters) :=
  C3_streaming_batch_equivalence true true c3src emptyTarget (by decide)

/-! ## Theorems: parallel pipeline isolation (claim C9) -/

lemma streamFold_all_success (skipEx : Bool) :
    ∀ (units : List SourceDataset) (st : TargetState) (E : List String) (c : Counters),
      (∀ d ∈ units, d.exportFails = false) →
      (∀ d ∈ units, d.unit.name ∉ E) →
      (∀ d ∈ units, d.unit.name ∉ namesOf st) →
      (units.map (fun d => d.unit.name)).Nodup →
      (units.foldl (streamStep skipEx true) ⟨st, E, c⟩).counters =
        ⟨c.total + units.length, c.success + units.length, c.skipped, c.failed⟩ := by
  intro units
  induction units with
  | nil => intro st E c _ _ _ _; simp
  | cons d t ih =>
      intro st E c hok hnE hnS hnd
      obtain ⟨ct, cs, ck, cf⟩ := c
      have hdok := hok d (by simp)
      have hdE := hnE d (by simp)
      have hdS := hnS d (by simp)
      have hfind : findByName st d.unit.name = none :=
        (findByName_eq_none_iff _ _).mpr hdS
      have hndc : d.unit.name ∉ t.map (fun y => y.unit.name) ∧
          (t.map (fun y => y.unit.name)).Nodup := by
        have := hnd
        rw [List.map_cons, List.nodup_cons] at this
        exact this
      rcases him : importDataset st d.unit false true with ⟨st2, res⟩
      have hpair := him
      simp [importDataset, hfind] at hpair
      have hres : res = some st.datasets.length := hpair.2.symm
      have hnames2 : namesOf st2 = namesOf st ++ [d.unit.name] := by
        rw [← hpair.1, importDocuments_names]
        simp [namesOf]
      have hss : streamStep skipEx true ⟨st, E, ⟨ct, cs, ck, cf⟩⟩ d =
          ⟨st2, E ++ [d.unit.name], ⟨ct + 1, cs + 1, ck, cf⟩⟩ := by
        simp [streamStep, hdE, hdok, him, hres]
      have hok2 : ∀ x ∈ t, x.exportFails = false := fun x hx => hok x (by simp [hx])
      have hxd : ∀ x ∈ t, x.unit.name ≠ d.unit.name := by
        intro x hx he
        exact hndc.1 (he ▸ List.mem_map_of_mem (fun y => y.unit.name) hx)
      have hE2 : ∀ x ∈ t, x.unit.name ∉ E ++ [d.unit.name] := by
        intro x hx
        have hxE := hnE x (by simp [hx])
        simp [List.mem_append, hxE, hxd x hx]
      have hS2 : ∀ x ∈ t, x.unit.name ∉ namesOf st2 := by
        intro x hx
        have hxS := hnS x (by simp [hx])
        rw [hnames2]
        simp [List.mem_append, hxS, hxd x hx]
      rw [List.foldl_cons, hss,
        ih st2 (E ++ [d.unit.name]) ⟨ct + 1, cs + 1, ck, cf⟩ hok2 hE2 hS2 hndc.2]
      simp [Counters.mk.injEq]
      omega

/-- Claim C9: when the dataset and app migrations run as two parallel
pipelines, a failure of the entire app pipeline while the dataset
pipeline succeeds still yields Success counters for every dataset
object; the app failure is captured and reported separately from the
dataset outcome, and the dataset pipeline result is exactly that of
running it alone. -/
theorem C9_parallel_pipeline_isolation (skipEx : Bool)
    (sources : List (List SourceDataset)) (st0 : TargetState) (e : String)
    (h0 : st0.datasets = [])
    (hnd : (sources.flatten.map (fun d => d.unit.name)).Nodup)
    (hok : ∀ d ∈ sources.flatten, d.exportFails = false) :
    migrateAllWithAppsParallel
        (Except.ok (migrateStreaming skipEx true sources st0)) (Except.error e) =
      ⟨none, some e,
       some ⟨sources.flatten.length, sources.flatten.length, 0, 0⟩, none⟩ := by
  have hE : namesOf st0 = [] := by simp [namesOf, h0]
  have hc : (migrateStreaming skipEx true sources st0).counters =
      ⟨sources.flatten.length, sources.flatten.length, 0, 0⟩ := by
    rw [migrateStreaming, ← List.foldl_flatten]
    have h := streamFold_all_success skipEx sources.flatten st0 (namesOf st0)
      ⟨0, 0, 0, 0⟩ hok
      (by intro d hd; rw [hE]; simp)
      (by intro d hd; rw [hE]; simp) hnd
    simpa using h
  simp [migrateAllWithAppsParallel, hc]

def c9src : List (List SourceDataset) :=
  [[⟨⟨"A", "", [⟨"d1", [⟨some "t"⟩]⟩]⟩, false⟩]]

theorem C9_parallel_pipeline_isolation_witness :
    migrateAllWithAppsParallel
        (Except.ok (migrateStreaming true true c9src emptyTarget))
        (Except.error "boom") =
      ⟨none, some "boom", some ⟨1, 1, 0, 0⟩, none⟩ :=
  C9_parallel_pipeline_isolation true c9src emptyTarget "boom" rfl
    (by decide) (by decide)

end DifySpec
